import Mathlib

/-! Shallow embedding of the monthly aggregation and growth-forecast pipeline of
`src/sales2.py` (a Streamlit retail sales dashboard script), together with
proofs of the specification claims about it.

Modelling conventions:
* a calendar month (`Month_Period`, the start-of-month timestamp) is an
  absolute month index `year * 12 + monthOfYear : Int`; the `%B` month name
  used by the month filter is determined by `monthPeriod % 12`, and
  `pd.DateOffset(months=1)` is `+ 1` on the index;
* monetary amounts are rationals (`ℚ`); the floating-point `NaN` produced by
  pandas (`pct_change` at the first row, `mean` of an empty series, `std` of a
  series with fewer than two entries) is modelled as `none : Option ℚ`;
* `pandas.DataFrame.groupby(col).sum()` sorts the group keys ascendingly and
  makes them unique; this is embedded in `monthsOf` (an insertion sort of the
  months occurring in the data) together with `sumAt`.
-/

namespace Sales2

/-- A transaction row after date parsing and feature engineering
(`sales2.py` lines 18-27): `monthPeriod` is the calendar month of the `Date`
as an absolute month index, mirroring the `Month_Period` start-of-month
timestamp; `Month_Name` (the `%B` label) is determined by `monthPeriod % 12`. -/
structure Transaction where
  monthPeriod : Int
  productCategory : String
  gender : String
  totalAmount : ℚ
deriving DecidableEq

/-- Sidebar filter selections (`sales2.py` lines 48-64): the three
multiselect widgets. The month filter selects `%B` month names, which are in
bijection with month-of-year codes `0..11`; it is modelled as the list of
selected codes. -/
structure Filters where
  category_filter : List String
  gender_filter : List String
  month_filter : List Int
deriving DecidableEq

/-- The category/gender part of the row filter (`sales2.py` lines 80-81),
used for the base series. -/
def base_pred (f : Filters) (t : Transaction) : Bool :=
  decide (t.productCategory ∈ f.category_filter) &&
    decide (t.gender ∈ f.gender_filter)

/-- The full row filter (`sales2.py` lines 69-73) defining `filtered_df`:
category, gender and month-name filters all applied. -/
def display_pred (f : Filters) (t : Transaction) : Bool :=
  base_pred f t && decide (t.monthPeriod % 12 ∈ f.month_filter)

/-- Insert a month index into a strictly ascending list of month indices,
keeping it strictly ascending (no duplicate is introduced). -/
def insertMonth (m : Int) : List Int → List Int
  | [] => [m]
  | x :: xs =>
    if m < x then m :: x :: xs
    else if m = x then x :: xs
    else x :: insertMonth m xs

/-- The set of months occurring in a list of transactions, as a strictly
ascending list: the group keys produced by `groupby('Month_Period')`. -/
def monthsOf (ts : List Transaction) : List Int :=
  ts.foldr (fun t acc => insertMonth t.monthPeriod acc) []

/-- Total amount of the transactions falling in month `m`: the `sum()` of one
`groupby` group. -/
def sumAt (ts : List Transaction) (m : Int) : ℚ :=
  ((ts.filter (fun t => t.monthPeriod == m)).map Transaction.totalAmount).sum

/-- Monthly aggregation (`groupby('Month_Period')['Total Amount'].sum()`
followed by `sort_values('Month_Period')`, `sales2.py` lines 78-87 and
94-100): the chronologically ascending list of `(month, summed amount)`
pairs. -/
def aggregate (ts : List Transaction) : List (Int × ℚ) :=
  (monthsOf ts).map (fun m => (m, sumAt ts m))

theorem insertMonth_mem {a m : Int} {l : List Int} :
    a ∈ insertMonth m l ↔ a = m ∨ a ∈ l := by
  induction l with
  | nil => simp [insertMonth]
  | cons x xs ih =>
    by_cases h1 : m < x
    · simp [insertMonth, h1]
    · by_cases h2 : m = x
      · simp only [insertMonth, if_neg h1, if_pos h2, List.mem_cons]
        subst h2
        tauto
      · simp only [insertMonth, if_neg h1, if_neg h2, List.mem_cons, ih]
        tauto

theorem insertMonth_sorted {m : Int} {l : List Int} (h : l.Sorted (· < ·)) :
    (insertMonth m l).Sorted (· < ·) := by
  induction l with
  | nil => simp [insertMonth]
  | cons x xs ih =>
    rw [List.sorted_cons] at h
    obtain ⟨hx, hxs⟩ := h
    by_cases h1 : m < x
    · simp only [insertMonth, if_pos h1]
      rw [List.sorted_cons]
      refine ⟨?_, List.sorted_cons.mpr ⟨hx, hxs⟩⟩
      intro b hb
      rcases List.mem_cons.mp hb with rfl | hb
      · exact h1
      · exact lt_trans h1 (hx b hb)
    · by_cases h2 : m = x
      · simp only [insertMonth, if_neg h1, if_pos h2]
        exact List.sorted_cons.mpr ⟨hx, hxs⟩
      · simp only [insertMonth, if_neg h1, if_neg h2]
        rw [List.sorted_cons]
        refine ⟨?_, ih hxs⟩
        intro b hb
        rcases insertMonth_mem.mp hb with rfl | hb
        · omega
        · exact hx b hb

theorem monthsOf_sorted (ts : List Transaction) : (monthsOf ts).Sorted (· < ·) := by
  induction ts with
  | nil => simp [monthsOf]
  | cons t ts ih => exact insertMonth_sorted ih

theorem monthsOf_mem {m : Int} {ts : List Transaction} :
    m ∈ monthsOf ts ↔ ∃ t ∈ ts, t.monthPeriod = m := by
  induction ts with
  | nil => simp [monthsOf]
  | cons t ts ih =>
    rw [show monthsOf (t :: ts) = insertMonth t.monthPeriod (monthsOf ts) from rfl,
      insertMonth_mem]
    constructor
    · rintro (rfl | hm)
      · exact ⟨t, List.mem_cons_self t ts, rfl⟩
      · obtain ⟨u, hu, hum⟩ := ih.mp hm
        exact ⟨u, List.mem_cons_of_mem t hu, hum⟩
    · rintro ⟨u, hu, hum⟩
      rcases List.mem_cons.mp hu with rfl | hu
      · exact Or.inl hum.symm
      · exact Or.inr (ih.mpr ⟨u, hu, hum⟩)

theorem aggregate_map_fst (l : List Transaction) :
    (aggregate l).map Prod.fst = monthsOf l := by
  simp [aggregate, List.map_map, Function.comp_def]

/-- C6: for every set of transactions and every filter predicate, the sequence
of month keys produced by the monthly aggregation is strictly ascending
chronologically and contains no duplicate month key. -/
theorem aggregate_keys_sorted_nodup (ts : List Transaction) (p : Transaction → Bool) :
    ((aggregate (ts.filter p)).map Prod.fst).Sorted (· < ·) ∧
      ((aggregate (ts.filter p)).map Prod.fst).Nodup := by
  rw [aggregate_map_fst]
  refine ⟨monthsOf_sorted _, ?_⟩
  exact List.Pairwise.imp (fun h => ne_of_lt h) (monthsOf_sorted _)

/-- Tail part of `pct_change` (`sales2.py` line 89): every remaining row has a
defined growth rate relative to the sum of the row before it, `prev` being the
sum of the immediately preceding row of the series. -/
def growthGo (prev : ℚ) : List (Int × ℚ) → List (Int × ℚ × Option ℚ)
  | [] => []
  | (m, s) :: rest => (m, s, some ((s - prev) / prev)) :: growthGo s rest

/-- Growth-rate column added by `pct_change` (`sales2.py` line 89): the first
row gets `NaN` (modelled `none`), every later row gets the fractional change
relative to the row immediately before it in the series. -/
def withGrowth : List (Int × ℚ) → List (Int × ℚ × Option ℚ)
  | [] => []
  | (m, s) :: rest => (m, s, none) :: growthGo s rest

/-- Base series `monthly_base` (`sales2.py` lines 78-89): aggregation of the
rows passing the category and gender filters only (the month filter is NOT
applied), with the `pct_change` growth column. -/
def monthly_base (ts : List Transaction) (f : Filters) : List (Int × ℚ × Option ℚ) :=
  withGrowth (aggregate (ts.filter (base_pred f)))

/-- Display series `monthly_sales` (`sales2.py` lines 94-100): aggregation of
`filtered_df`, i.e. with all three filters applied. -/
def monthly_sales (ts : List Transaction) (f : Filters) : List (Int × ℚ) :=
  aggregate (ts.filter (display_pred f))

/-- Row lookup `monthly_base[monthly_base['Month_Period'] == m].iloc[0]`
(`sales2.py` lines 121-122): the first row of the base series whose month is
`m`, reduced to its `(Total Amount, Growth_Rate)` payload; `none` models the
empty selection. -/
def lookupMonth (b : List (Int × ℚ × Option ℚ)) (m : Int) : Option (ℚ × Option ℚ) :=
  (b.find? (fun e => e.1 == m)).map Prod.snd

/-- Mean of a series of rationals with pandas semantics: the mean of an empty
series is `NaN`, modelled as `none` (`sales2.py` line 108). -/
def pandasMean (l : List ℚ) : Option ℚ :=
  if l.length = 0 then none else some (l.sum / (l.length : ℚ))

/-- Mean of a series that may contain `NaN` entries, with pandas semantics:
`NaN` entries are skipped (`skipna=True` default), and the mean of a series
with no non-`NaN` entry is `NaN` (`none`). -/
def nanMean (l : List (Option ℚ)) : Option ℚ :=
  let v := l.filterMap id
  if v.length = 0 then none else some (v.sum / (v.length : ℚ))

/-- Insight value `avg_growth_rate` (`sales2.py` line 179):
`monthly_base['Growth_Rate'].mean() * 100`, the `NaN`-skipping mean of the
growth column scaled to a percentage. -/
def avg_growth_rate (b : List (Int × ℚ × Option ℚ)) : Option ℚ :=
  (nanMean (b.map (fun e => e.2.2))).map (fun g => g * 100)

/-- Month selected for the forecast (`sales2.py` lines 117-118):
`monthly_sales.iloc[-1]['Month_Period']`, the chronologically last month of
the display series, or `none` when the display series is empty. -/
def selected_month? (ts : List Transaction) (f : Filters) : Option Int :=
  ((monthly_sales ts f).getLast?).map Prod.fst

/-- Full month names used by `strftime('%B')`. -/
def monthNames : List String :=
  ["January", "February", "March", "April", "May", "June", "July", "August",
    "September", "October", "November", "December"]

def unknownName : String := ""

/-- Label `strftime('%B %Y')` of an absolute month index (`sales2.py`
lines 132-133). -/
def monthLabel (m : Int) : String :=
  monthNames.getD (m % 12).toNat unknownName ++ " " ++ toString (m / 12)

/-- KPI outputs of the pipeline (`sales2.py` lines 107-133):
`avg_monthly_revenue` is `Option ℚ` because pandas returns `NaN` for the mean
of an empty series. -/
structure Dashboard where
  total_revenue : ℚ
  avg_monthly_revenue : Option ℚ
  previous_month_revenue : ℚ
  next_month_revenue : ℚ
  expected_growth : ℚ
  previous_month_label : String
  next_month_label : String
deriving DecidableEq

/-- KPI computation (`sales2.py` lines 107-133), transcribed branch by
branch: defaults of `0` / `"N/A"`, overridden when the display series is
non-empty and both the previous and the selected month are found in the base
series; the forecast itself additionally requires the looked-up growth rate
to be non-`NaN`, while `previous_month_revenue` and the two labels do not. -/
def computeDashboard (ts : List Transaction) (f : Filters) : Dashboard :=
  let sales := monthly_sales ts f
  let base := monthly_base ts f
  let total := (sales.map Prod.snd).sum
  let avg := pandasMean (sales.map Prod.snd)
  match selected_month? ts f with
  | none => ⟨total, avg, 0, 0, 0, "N/A", "N/A"⟩
  | some m =>
    match lookupMonth base (m - 1), lookupMonth base m with
    | some pe, some ce =>
      match ce.2 with
      | some g =>
        ⟨total, avg, pe.1, pe.1 * (1 + g), g * 100, monthLabel (m - 1), monthLabel (m + 1)⟩
      | none =>
        ⟨total, avg, pe.1, 0, 0, monthLabel (m - 1), monthLabel (m + 1)⟩
    | _, _ => ⟨total, avg, 0, 0, 0, "N/A", "N/A"⟩

/-- Condition structure of the forecast branch (`sales2.py` lines 117-130):
`some (p, g)` exactly when the display series is non-empty, the month before
the selected month and the selected month are both found in the base series,
and the growth rate stored at the selected month is non-`NaN`; `p` is then
the base-series sum at the previous month and `g` that growth rate. -/
def forecast_inputs (ts : List Transaction) (f : Filters) : Option (ℚ × ℚ) :=
  match selected_month? ts f with
  | none => none
  | some m =>
    match lookupMonth (monthly_base ts f) (m - 1), lookupMonth (monthly_base ts f) m with
    | some pe, some ce =>
      match ce.2 with
      | some g => some (pe.1, g)
      | none => none
    | _, _ => none

/-- Trend judgment of the insight block (`sales2.py` line 182):
`'positive' if avg_growth_rate > 0 else 'negative'`; a `NaN` average
(modelled `none`) compares as not-greater-than-zero in Python, hence
`"negative"`. -/
def trendOf (ag : Option ℚ) : String :=
  match ag with
  | some g => if 0 < g then "positive" else "negative"
  | none => "negative"

/-- Narrated trend (`sales2.py` lines 174-182): only produced when the
display series has at least two rows, otherwise the script shows the
not-enough-data notice (`none`). -/
def insights_trend (ts : List Transaction) (f : Filters) : Option String :=
  if 2 ≤ (monthly_sales ts f).length then
    some (trendOf (avg_growth_rate (monthly_base ts f)))
  else none

/-- Sample variance with pandas `std()` semantics (`ddof=1` default): `NaN`
(modelled `none`) for fewer than two entries, otherwise the sum of squared
deviations from the mean divided by `n - 1` (`sales2.py` line 178 computes
its square root). -/
def sampleVarQ (l : List ℚ) : Option ℚ :=
  if l.length < 2 then none
  else
    some (((l.map (fun x => (x - l.sum / (l.length : ℚ)) ^ 2)).sum) / ((l.length : ℚ) - 1))

/-- Insight value `revenue_std` (`sales2.py` line 178):
`monthly_sales['Total Amount'].std()`, the sample standard deviation of the
display-series sums; the floating-point square root is modelled by the real
square root, which is the one non-executable step of the embedding. -/
noncomputable def revenue_std (l : List ℚ) : Option ℝ :=
  (sampleVarQ l).map (fun v : ℚ => Real.sqrt (v : ℝ))

theorem growthGo_length : ∀ (l : List (Int × ℚ)) (p : ℚ), (growthGo p l).length = l.length := by
  intro l
  induction l with
  | nil => intro p; rfl
  | cons a rest ih =>
    intro p
    obtain ⟨m, s⟩ := a
    simp only [growthGo, List.length_cons, ih]

theorem withGrowth_length (l : List (Int × ℚ)) : (withGrowth l).length = l.length := by
  cases l with
  | nil => rfl
  | cons a rest =>
    obtain ⟨m, s⟩ := a
    simp only [withGrowth, List.length_cons, growthGo_length]

theorem mem_of_getLast?_eq_some {α : Type _} {l : List α} {a : α}
    (h : l.getLast? = some a) : a ∈ l := by
  obtain ⟨hne, heq⟩ := List.mem_getLast?_eq_getLast (Option.mem_def.mpr h)
  rw [heq]
  exact List.getLast_mem hne

theorem growthGo_map_fst : ∀ (l : List (Int × ℚ)) (p : ℚ),
    (growthGo p l).map (fun e => e.1) = l.map Prod.fst := by
  intro l
  induction l with
  | nil => intro p; rfl
  | cons a rest ih =>
    intro p
    obtain ⟨m, s⟩ := a
    simp only [growthGo, List.map_cons, ih]

theorem withGrowth_map_fst (l : List (Int × ℚ)) :
    (withGrowth l).map (fun e => e.1) = l.map Prod.fst := by
  cases l with
  | nil => rfl
  | cons a rest =>
    obtain ⟨m, s⟩ := a
    simp only [withGrowth, List.map_cons, growthGo_map_fst]

theorem growthGo_find?_proj (k : Int) :
    ∀ (l : List (Int × ℚ)) (p : ℚ),
      ((growthGo p l).find? (fun e => e.1 == k)).map (fun e => (e.1, e.2.1)) =
        l.find? (fun e => e.1 == k) := by
  intro l
  induction l with
  | nil => intro p; rfl
  | cons a rest ih =>
    intro p
    obtain ⟨m, s⟩ := a
    by_cases h : m = k
    · subst h
      simp only [growthGo]
      rw [List.find?_cons_of_pos _ (by simp), List.find?_cons_of_pos _ (by simp)]
      rfl
    · simp only [growthGo]
      rw [List.find?_cons_of_neg _ (by simp [h]), List.find?_cons_of_neg _ (by simp [h])]
      exact ih s

theorem withGrowth_find?_proj (k : Int) (l : List (Int × ℚ)) :
    ((withGrowth l).find? (fun e => e.1 == k)).map (fun e => (e.1, e.2.1)) =
      l.find? (fun e => e.1 == k) := by
  cases l with
  | nil => rfl
  | cons a rest =>
    obtain ⟨m, s⟩ := a
    by_cases h : m = k
    · subst h
      simp only [withGrowth]
      rw [List.find?_cons_of_pos _ (by simp), List.find?_cons_of_pos _ (by simp)]
      rfl
    · simp only [withGrowth]
      rw [List.find?_cons_of_neg _ (by simp [h]), List.find?_cons_of_neg _ (by simp [h])]
      exact growthGo_find?_proj k rest s

theorem lookupMonth_withGrowth_eq {l : List (Int × ℚ)} {k : Int} {v : ℚ} {g : Option ℚ}
    (h : lookupMonth (withGrowth l) k = some (v, g)) :
    l.find? (fun e => e.1 == k) = some (k, v) := by
  unfold lookupMonth at h
  cases hf : (withGrowth l).find? (fun e => e.1 == k) with
  | none => rw [hf] at h; simp at h
  | some e =>
    rw [hf] at h
    simp only [Option.map_some'] at h
    have hk : e.1 = k := by
      have hfs := List.find?_some hf
      simpa using hfs
    have hproj := withGrowth_find?_proj k l
    rw [hf] at hproj
    simp only [Option.map_some'] at hproj
    rw [← hproj, hk]
    have h2 := Option.some.inj h
    rw [h2]

theorem lookupMonth_isSome {b : List (Int × ℚ × Option ℚ)} {k : Int}
    (h : ∃ x ∈ b, x.1 = k) : (lookupMonth b k).isSome := by
  obtain ⟨x, hx, hxk⟩ := h
  have hfs : (b.find? (fun e => e.1 == k)).isSome :=
    List.find?_isSome.mpr ⟨x, hx, by simp [hxk]⟩
  unfold lookupMonth
  cases hf : b.find? (fun e => e.1 == k) with
  | none => rw [hf] at hfs; simp at hfs
  | some e => simp

theorem find?_head_sorted {k b : Int} {c y : ℚ} {rest2 : List (Int × ℚ)}
    (hb : k - 1 < b)
    (hs : (((b, y) :: rest2).map Prod.fst).Sorted (· < ·))
    (hc : ((b, y) :: rest2).find? (fun e => e.1 == k) = some (k, c)) :
    b = k ∧ y = c := by
  rw [List.map_cons, List.sorted_cons] at hs
  obtain ⟨hlt, _⟩ := hs
  by_cases hbk : b = k
  · subst hbk
    rw [List.find?_cons_of_pos _ (by simp)] at hc
    exact ⟨rfl, congrArg Prod.snd (Option.some.inj hc)⟩
  · rw [List.find?_cons_of_neg _ (by simp [hbk])] at hc
    have hmem := List.mem_of_find?_eq_some hc
    have hk2 : k ∈ rest2.map Prod.fst := List.mem_map.mpr ⟨(k, c), hmem, rfl⟩
    have := hlt k hk2
    omega

theorem growthGo_adjacent {k : Int} {p c : ℚ} :
    ∀ (l : List (Int × ℚ)) (p0 : ℚ),
      (l.map Prod.fst).Sorted (· < ·) →
      l.find? (fun e => e.1 == k - 1) = some (k - 1, p) →
      l.find? (fun e => e.1 == k) = some (k, c) →
      (growthGo p0 l).find? (fun e => e.1 == k) = some (k, c, some ((c - p) / p)) := by
  intro l
  induction l with
  | nil => intro p0 _ hp _; simp at hp
  | cons a rest ih =>
    intro p0 hs hp hc
    obtain ⟨m, s⟩ := a
    rw [List.map_cons, List.sorted_cons] at hs
    obtain ⟨hlt, hs'⟩ := hs
    by_cases h1 : m = k - 1
    · subst h1
      rw [List.find?_cons_of_pos _ (by simp)] at hp
      have hsp : s = p := by
        injection hp with hp'
        exact congrArg Prod.snd hp'
      rw [List.find?_cons_of_neg _ (by simp only [beq_iff_eq]; omega)] at hc
      cases rest with
      | nil => simp at hc
      | cons b2 rest2 =>
        obtain ⟨b, y⟩ := b2
        have hbgt : k - 1 < b := hlt b (by simp)
        obtain ⟨hbk, hyc⟩ := find?_head_sorted hbgt hs' hc
        subst hbk
        subst hyc
        simp only [growthGo]
        rw [List.find?_cons_of_neg _ (by simp only [beq_iff_eq]; omega), List.find?_cons_of_pos _ (by simp)]
        rw [hsp]
    · rw [List.find?_cons_of_neg _ (by simp [h1])] at hp
      have hmem := List.mem_of_find?_eq_some hp
      have hk1 : k - 1 ∈ rest.map Prod.fst := List.mem_map.mpr ⟨(k - 1, p), hmem, rfl⟩
      have hmlt : m < k - 1 := hlt _ hk1
      rw [List.find?_cons_of_neg _ (by simp only [beq_iff_eq]; omega)] at hc
      simp only [growthGo]
      rw [List.find?_cons_of_neg _ (by simp only [beq_iff_eq]; omega)]
      exact ih s hs' hp hc

theorem withGrowth_adjacent {k : Int} {p c : ℚ} {l : List (Int × ℚ)}
    (hs : (l.map Prod.fst).Sorted (· < ·))
    (hp : l.find? (fun e => e.1 == k - 1) = some (k - 1, p))
    (hc : l.find? (fun e => e.1 == k) = some (k, c)) :
    lookupMonth (withGrowth l) k = some (c, some ((c - p) / p)) := by
  cases l with
  | nil => simp at hp
  | cons a rest =>
    obtain ⟨m, s⟩ := a
    rw [List.map_cons, List.sorted_cons] at hs
    obtain ⟨hlt, hs'⟩ := hs
    by_cases h1 : m = k - 1
    · subst h1
      rw [List.find?_cons_of_pos _ (by simp)] at hp
      have hsp : s = p := by
        injection hp with hp'
        exact congrArg Prod.snd hp'
      rw [List.find?_cons_of_neg _ (by simp only [beq_iff_eq]; omega)] at hc
      cases rest with
      | nil => simp at hc
      | cons b2 rest2 =>
        obtain ⟨b, y⟩ := b2
        have hbgt : k - 1 < b := hlt b (by simp)
        obtain ⟨hbk, hyc⟩ := find?_head_sorted hbgt hs' hc
        subst hbk
        subst hyc
        unfold lookupMonth
        simp only [withGrowth, growthGo]
        rw [List.find?_cons_of_neg _ (by simp only [beq_iff_eq]; omega), List.find?_cons_of_pos _ (by simp)]
        rw [hsp]
        rfl
    · rw [List.find?_cons_of_neg _ (by simp [h1])] at hp
      have hmem := List.mem_of_find?_eq_some hp
      have hk1 : k - 1 ∈ rest.map Prod.fst := List.mem_map.mpr ⟨(k - 1, p), hmem, rfl⟩
      have hmlt : m < k - 1 := hlt _ hk1
      rw [List.find?_cons_of_neg _ (by simp only [beq_iff_eq]; omega)] at hc
      unfold lookupMonth
      simp only [withGrowth]
      rw [List.find?_cons_of_neg _ (by simp only [beq_iff_eq]; omega)]
      have := growthGo_adjacent rest s hs' hp hc
      rw [this]
      rfl

/-- C2: whenever the display series is non-empty, the previous month and the
selected month are both found in the base series and the base-series growth
rate at the selected month is defined (the `some` case of `forecast_inputs`),
the pipeline returns `next_month_revenue = previousRevenue * (1 + growthRate)`
and `expected_growth = growthRate * 100`, where `previousRevenue` is the
base-series sum at the previous month; otherwise both stay at their zero
defaults. -/
theorem forecast_formula (ts : List Transaction) (f : Filters) :
    match forecast_inputs ts f with
    | some pg =>
      (computeDashboard ts f).next_month_revenue = pg.1 * (1 + pg.2) ∧
        (computeDashboard ts f).expected_growth = pg.2 * 100
    | none =>
      (computeDashboard ts f).next_month_revenue = 0 ∧
        (computeDashboard ts f).expected_growth = 0 := by
  rcases hm : selected_month? ts f with _ | m
  · simp [forecast_inputs, computeDashboard, hm]
  · rcases hp : lookupMonth (monthly_base ts f) (m - 1) with _ | pe
    · simp [forecast_inputs, computeDashboard, hm, hp]
    · rcases hc : lookupMonth (monthly_base ts f) m with _ | ce
      · simp [forecast_inputs, computeDashboard, hm, hp, hc]
      · rcases hg : ce.2 with _ | g
        · simp [forecast_inputs, computeDashboard, hm, hp, hc, hg]
        · simp [forecast_inputs, computeDashboard, hm, hp, hc, hg]

/-- C4: when the display series is non-empty but the month immediately
preceding the selected month is absent from the base series, the
previous/next revenue and expected growth stay at their zero defaults, both
month labels stay at the sentinel, and the remaining KPIs keep their generic
values (total and mean of the display sums). -/
theorem missing_prev_month_defaults (ts : List Transaction) (f : Filters) (m : Int)
    (hm : selected_month? ts f = some m)
    (hp : lookupMonth (monthly_base ts f) (m - 1) = none) :
    (computeDashboard ts f).previous_month_revenue = 0 ∧
      (computeDashboard ts f).next_month_revenue = 0 ∧
      (computeDashboard ts f).expected_growth = 0 ∧
      (computeDashboard ts f).previous_month_label = "N/A" ∧
      (computeDashboard ts f).next_month_label = "N/A" ∧
      (computeDashboard ts f).total_revenue = ((monthly_sales ts f).map Prod.snd).sum ∧
      (computeDashboard ts f).avg_monthly_revenue =
        pandasMean ((monthly_sales ts f).map Prod.snd) := by
  rcases hc : lookupMonth (monthly_base ts f) m with _ | ce <;>
    simp [computeDashboard, hm, hp, hc]

/-- C10: whenever the display series is non-empty, its chronologically last
month (the selected month) is also a month of the base series — every
transaction passing all three filters passes the category/gender filters —
so the lookup of the selected month in the base series never fails. -/
theorem selected_month_in_base (ts : List Transaction) (f : Filters) (m : Int)
    (hm : selected_month? ts f = some m) :
    (lookupMonth (monthly_base ts f) m).isSome := by
  unfold selected_month? at hm
  cases hl : (monthly_sales ts f).getLast? with
  | none => rw [hl] at hm; simp at hm
  | some e =>
    rw [hl] at hm
    simp only [Option.map_some'] at hm
    have he : e ∈ monthly_sales ts f := mem_of_getLast?_eq_some hl
    have h1 : m ∈ monthsOf (ts.filter (display_pred f)) := by
      unfold monthly_sales aggregate at he
      obtain ⟨m', hm', he'⟩ := List.mem_map.mp he
      have : m' = m := by
        have := congrArg Prod.fst he'
        simp at this
        rw [← Option.some.inj hm, ← he']
      rwa [← this]
    obtain ⟨t, ht, htm⟩ := monthsOf_mem.mp h1
    rw [List.mem_filter] at ht
    have htb : base_pred f t = true := by
      have hd := ht.2
      unfold display_pred at hd
      rw [Bool.and_eq_true] at hd
      exact hd.1
    have h2 : m ∈ monthsOf (ts.filter (base_pred f)) :=
      monthsOf_mem.mpr ⟨t, List.mem_filter.mpr ⟨ht.1, htb⟩, htm⟩
    refine lookupMonth_isSome ?_
    have h3 : m ∈ (withGrowth (aggregate (ts.filter (base_pred f)))).map (fun e => e.1) := by
      have hw := withGrowth_map_fst (aggregate (ts.filter (base_pred f)))
      rw [hw, aggregate_map_fst]
      exact h2
    obtain ⟨x, hx, hx1⟩ := List.mem_map.mp h3
    exact ⟨x, hx, hx1⟩

/-- C9: when the display series is non-empty, the previous and selected month
are both found in the base series and the base-series sum at the previous
month is non-zero, the forecast reproduces the base-series sum at the
selected month: the growth rate stored at the selected month was computed
against exactly the previous month, so
`previousRevenue * (1 + growthRate) = currentRevenue`. -/
theorem next_revenue_eq_current_base (ts : List Transaction) (f : Filters) (m : Int)
    (p : ℚ) (pg : Option ℚ) (c : ℚ) (g? : Option ℚ)
    (hm : selected_month? ts f = some m)
    (hp : lookupMonth (monthly_base ts f) (m - 1) = some (p, pg))
    (hc : lookupMonth (monthly_base ts f) m = some (c, g?))
    (hpne : p ≠ 0) :
    (computeDashboard ts f).next_month_revenue = c := by
  have hfp : (aggregate (ts.filter (base_pred f))).find? (fun e => e.1 == m - 1) =
      some (m - 1, p) := lookupMonth_withGrowth_eq hp
  have hfc : (aggregate (ts.filter (base_pred f))).find? (fun e => e.1 == m) =
      some (m, c) := lookupMonth_withGrowth_eq hc
  have hs : ((aggregate (ts.filter (base_pred f))).map Prod.fst).Sorted (· < ·) := by
    rw [aggregate_map_fst]
    exact monthsOf_sorted _
  have hadj : lookupMonth (monthly_base ts f) m = some (c, some ((c - p) / p)) :=
    withGrowth_adjacent hs hfp hfc
  simp only [computeDashboard, hm, hp, hadj]
  field_simp

/-- C1 (amended): with the category and gender filters fixed, two runs whose
month filters leave the display series with the same chronologically last
month (in particular, both empty) produce the same forecast: the next-month
revenue and the expected growth depend on the month filter only through the
selected month. -/
theorem month_filter_decoupling (ts : List Transaction) (cats gens : List String)
    (mf1 mf2 : List Int)
    (h : selected_month? ts ⟨cats, gens, mf1⟩ = selected_month? ts ⟨cats, gens, mf2⟩) :
    (computeDashboard ts ⟨cats, gens, mf1⟩).next_month_revenue =
        (computeDashboard ts ⟨cats, gens, mf2⟩).next_month_revenue ∧
      (computeDashboard ts ⟨cats, gens, mf1⟩).expected_growth =
        (computeDashboard ts ⟨cats, gens, mf2⟩).expected_growth := by
  have hbase : monthly_base ts ⟨cats, gens, mf1⟩ = monthly_base ts ⟨cats, gens, mf2⟩ := rfl
  rcases hm : selected_month? ts ⟨cats, gens, mf2⟩ with _ | m
  · rw [hm] at h
    simp [computeDashboard, h, hm]
  · rw [hm] at h
    rcases hp : lookupMonth (monthly_base ts ⟨cats, gens, mf2⟩) (m - 1) with _ | pe
    · rcases hc : lookupMonth (monthly_base ts ⟨cats, gens, mf2⟩) m with _ | ce <;>
        simp [computeDashboard, h, hm, hbase, hp, hc]
    · rcases hc : lookupMonth (monthly_base ts ⟨cats, gens, mf2⟩) m with _ | ce
      · simp [computeDashboard, h, hm, hbase, hp, hc]
      · rcases hg : ce.2 with _ | g <;>
          simp [computeDashboard, h, hm, hbase, hp, hc, hg]

theorem growthGo_filterMap_col_length : ∀ (l : List (Int × ℚ)) (p : ℚ),
    ((growthGo p l).filterMap (fun e => e.2.2)).length = l.length := by
  intro l
  induction l with
  | nil => intro p; rfl
  | cons a rest ih =>
    intro p
    obtain ⟨m, s⟩ := a
    simp only [growthGo, List.filterMap_cons, List.length_cons, ih]

theorem withGrowth_filterMap_col_length (l : List (Int × ℚ)) :
    ((withGrowth l).filterMap (fun e => e.2.2)).length = l.length - 1 := by
  cases l with
  | nil => rfl
  | cons a rest =>
    obtain ⟨m, s⟩ := a
    simp only [withGrowth, List.filterMap_cons, List.length_cons,
      growthGo_filterMap_col_length]
    omega

theorem avg_growth_rate_eq (ts : List Transaction) (f : Filters)
    (h2 : 2 ≤ (monthly_base ts f).length) :
    ((monthly_base ts f).filterMap (fun e => e.2.2)).length =
        (monthly_base ts f).length - 1 ∧
      avg_growth_rate (monthly_base ts f) =
        some ((((monthly_base ts f).filterMap (fun e => e.2.2)).sum /
          (((monthly_base ts f).length : ℚ) - 1)) * 100) := by
  have hcol : ((monthly_base ts f).filterMap (fun e => e.2.2)).length =
      (monthly_base ts f).length - 1 := by
    unfold monthly_base
    rw [withGrowth_filterMap_col_length, withGrowth_length]
  refine ⟨hcol, ?_⟩
  simp only [avg_growth_rate, nanMean]
  rw [List.filterMap_map, Function.id_comp]
  have hne : ¬(((monthly_base ts f).filterMap (fun e => e.2.2)).length = 0) := by omega
  rw [if_neg hne]
  simp only [Option.map_some']
  congr 2
  rw [hcol]
  have h1 : 1 ≤ (monthly_base ts f).length := by omega
  push_cast [Nat.cast_sub h1]
  ring

/-- C5: for every base series with at least two periods, the insight value
`avg_growth_rate` is the arithmetic mean of only the defined growth rates:
the sum of the defined rates divided by their count, and that count is the
series length minus one (the first period's `NaN` rate is excluded from both
numerator and denominator, never counted as zero), scaled by 100 as in the
source. -/
theorem avg_growth_rate_skips_first (ts : List Transaction) (f : Filters)
    (h2 : 2 ≤ (monthly_base ts f).length) :
    ((monthly_base ts f).filterMap (fun e => e.2.2)).length =
        (monthly_base ts f).length - 1 ∧
      avg_growth_rate (monthly_base ts f) =
        some ((((monthly_base ts f).filterMap (fun e => e.2.2)).sum /
          (((monthly_base ts f).length : ℚ) - 1)) * 100) :=
  avg_growth_rate_eq ts f h2

theorem monthly_sales_length_le (ts : List Transaction) (f : Filters) :
    (monthly_sales ts f).length ≤ (monthly_base ts f).length := by
  have h1 : (monthly_sales ts f).length =
      (monthsOf (ts.filter (display_pred f))).length := by
    unfold monthly_sales aggregate
    rw [List.length_map]
  have h2 : (monthly_base ts f).length =
      (monthsOf (ts.filter (base_pred f))).length := by
    unfold monthly_base
    rw [withGrowth_length]
    unfold aggregate
    rw [List.length_map]
  rw [h1, h2]
  have hsub : monthsOf (ts.filter (display_pred f)) ⊆
      monthsOf (ts.filter (base_pred f)) := by
    intro m hm
    obtain ⟨t, ht, htm⟩ := monthsOf_mem.mp hm
    rw [List.mem_filter] at ht
    have hb : base_pred f t = true := by
      have hd := ht.2
      unfold display_pred at hd
      rw [Bool.and_eq_true] at hd
      exact hd.1
    exact monthsOf_mem.mpr ⟨t, List.mem_filter.mpr ⟨ht.1, hb⟩, htm⟩
  have hnd : (monthsOf (ts.filter (display_pred f))).Nodup :=
    List.Pairwise.imp (fun h => ne_of_lt h) (monthsOf_sorted _)
  exact (List.subperm_of_subset hnd hsub).length_le

/-- C7: whenever the display series has at least two periods, the narrated
trend is "positive" exactly when the average growth rate is strictly greater
than zero; an average of exactly zero is narrated as "negative". -/
theorem trend_positive_iff (ts : List Transaction) (f : Filters)
    (h2 : 2 ≤ (monthly_sales ts f).length) :
    ∃ g, avg_growth_rate (monthly_base ts f) = some g ∧
      ((insights_trend ts f = some "positive") ↔ 0 < g) ∧
      (g = 0 → insights_trend ts f = some "negative") := by
  have hb2 : 2 ≤ (monthly_base ts f).length :=
    le_trans h2 (monthly_sales_length_le ts f)
  obtain ⟨g, havg⟩ : ∃ g, avg_growth_rate (monthly_base ts f) = some g :=
    ⟨_, (avg_growth_rate_eq ts f hb2).2⟩
  refine ⟨g, havg, ?_, ?_⟩
  · unfold insights_trend trendOf
    rw [if_pos h2, havg]
    by_cases hg : 0 < g
    · simp [hg]
    · simp [hg]
  · intro hg0
    unfold insights_trend trendOf
    rw [if_pos h2, havg, hg0]
    simp

/-- C8: the revenue volatility of a display series is the sample standard
deviation (divisor `n - 1`) of its monthly sums: for a two-period display
series with sums `a` and `b` it equals `|b - a| / sqrt 2`, and (for `a ≠ b`)
it differs from the population value `|b - a| / 2`. -/
theorem revenue_std_sample (ts : List Transaction) (f : Filters) (a b : ℚ)
    (h : (monthly_sales ts f).map Prod.snd = [a, b]) :
    revenue_std ((monthly_sales ts f).map Prod.snd) =
        some (|(b : ℝ) - (a : ℝ)| / Real.sqrt 2) ∧
      (a ≠ b →
        revenue_std ((monthly_sales ts f).map Prod.snd) ≠
          some (|(b : ℝ) - (a : ℝ)| / 2)) := by
  rw [h]
  have h22 : ¬([a, b].length < 2) := by norm_num
  have hvar : sampleVarQ [a, b] = some ((b - a) ^ 2 / 2) := by
    unfold sampleVarQ
    rw [if_neg h22]
    congr 1
    norm_num
    ring
  have heq : revenue_std [a, b] = some (|(b : ℝ) - (a : ℝ)| / Real.sqrt 2) := by
    unfold revenue_std
    rw [hvar]
    simp only [Option.map_some']
    congr 1
    have hc : (((b - a) ^ 2 / 2 : ℚ) : ℝ) = ((b : ℝ) - (a : ℝ)) ^ 2 / 2 := by
      push_cast
      ring
    rw [hc, Real.sqrt_div (sq_nonneg _), Real.sqrt_sq_eq_abs]
  refine ⟨heq, fun hab hcontra => ?_⟩
  rw [heq] at hcontra
  have hdiv : |(b : ℝ) - (a : ℝ)| / Real.sqrt 2 = |(b : ℝ) - (a : ℝ)| / 2 :=
    Option.some.inj hcontra
  have habs : 0 < |(b : ℝ) - (a : ℝ)| := by
    rw [abs_pos, sub_ne_zero]
    exact fun hba => hab (by exact_mod_cast hba.symm)
  have h2pos : (0 : ℝ) < Real.sqrt 2 := Real.sqrt_pos.mpr (by norm_num)
  have hx2 : |(b : ℝ) - (a : ℝ)| * 2 = |(b : ℝ) - (a : ℝ)| * Real.sqrt 2 :=
    (div_eq_div_iff (ne_of_gt h2pos) (by norm_num)).mp hdiv
  have hs2 : (2 : ℝ) = Real.sqrt 2 := mul_left_cancel₀ (ne_of_gt habs) hx2
  have hsq := Real.sq_sqrt (show (0 : ℝ) ≤ 2 by norm_num)
  rw [← hs2] at hsq
  norm_num at hsq

/-- Example dataset: one category, one gender, three consecutive months with
revenues 1000, 1200 and 900 (the worked example of the specification). -/
def tsEx : List Transaction :=
  [⟨0, "A", "M", 1000⟩, ⟨1, "A", "M", 1200⟩, ⟨2, "A", "M", 900⟩]

/-- Example dataset with a gap: months 0 and 2 occur, month 1 does not. -/
def tsGap : List Transaction :=
  [⟨0, "A", "M", 500⟩, ⟨2, "A", "M", 700⟩]

/-- Example dataset with two months, sums 10 and 30. -/
def tsTwo : List Transaction :=
  [⟨0, "A", "M", 10⟩, ⟨1, "A", "M", 30⟩]

/-- C3 (code evaluated at the failing input): with a month filter matching no
transaction the display series is empty; `total_revenue` is `0` and both
month labels are the `"N/A"` sentinel as claimed, but `avg_monthly_revenue`
is the pandas `NaN` of a mean over an empty series (modelled `none`), not `0`
and not an explicit no-data marker. -/
theorem empty_display_mean_nan :
    (computeDashboard tsEx ⟨["A"], ["M"], [5]⟩).total_revenue = 0 ∧
      (computeDashboard tsEx ⟨["A"], ["M"], [5]⟩).avg_monthly_revenue = none ∧
      (computeDashboard tsEx ⟨["A"], ["M"], [5]⟩).previous_month_label = "N/A" ∧
      (computeDashboard tsEx ⟨["A"], ["M"], [5]⟩).next_month_label = "N/A" := by
  norm_num [computeDashboard, monthly_sales, monthly_base, aggregate, monthsOf, insertMonth,
    sumAt, tsEx, display_pred, base_pred, selected_month?, lookupMonth, withGrowth, growthGo,
    pandasMean, beq_iff_eq]

/-- C1 (counterexample): with category and gender filters fixed, narrowing the
month filter from all three months to the first two (a subset, dropping the
last display month) changes both the expected growth (20 instead of -25) and
the next-month revenue (1200 instead of 900). -/
theorem month_narrowing_changes_forecast :
    (∀ x ∈ ([0, 1] : List Int), x ∈ ([0, 1, 2] : List Int)) ∧
      (computeDashboard tsEx ⟨["A"], ["M"], [0, 1]⟩).expected_growth ≠
        (computeDashboard tsEx ⟨["A"], ["M"], [0, 1, 2]⟩).expected_growth ∧
      (computeDashboard tsEx ⟨["A"], ["M"], [0, 1]⟩).next_month_revenue ≠
        (computeDashboard tsEx ⟨["A"], ["M"], [0, 1, 2]⟩).next_month_revenue := by
  refine ⟨by decide, ?_, ?_⟩ <;>
    norm_num [computeDashboard, monthly_sales, monthly_base, aggregate, monthsOf, insertMonth,
      sumAt, tsEx, display_pred, base_pred, selected_month?, lookupMonth, withGrowth, growthGo,
      pandasMean, beq_iff_eq]

theorem month_filter_decoupling_witness :
    (computeDashboard tsEx ⟨["A"], ["M"], [1, 2]⟩).next_month_revenue =
        (computeDashboard tsEx ⟨["A"], ["M"], [0, 1, 2]⟩).next_month_revenue ∧
      (computeDashboard tsEx ⟨["A"], ["M"], [1, 2]⟩).expected_growth =
        (computeDashboard tsEx ⟨["A"], ["M"], [0, 1, 2]⟩).expected_growth :=
  month_filter_decoupling tsEx ["A"] ["M"] [1, 2] [0, 1, 2]
    (by norm_num [selected_month?, monthly_sales, aggregate, monthsOf, insertMonth, sumAt,
      tsEx, display_pred, base_pred, beq_iff_eq])

theorem missing_prev_month_defaults_witness :
    (computeDashboard tsGap ⟨["A"], ["M"], [0, 1, 2]⟩).previous_month_revenue = 0 ∧
      (computeDashboard tsGap ⟨["A"], ["M"], [0, 1, 2]⟩).next_month_revenue = 0 ∧
      (computeDashboard tsGap ⟨["A"], ["M"], [0, 1, 2]⟩).expected_growth = 0 ∧
      (computeDashboard tsGap ⟨["A"], ["M"], [0, 1, 2]⟩).previous_month_label = "N/A" ∧
      (computeDashboard tsGap ⟨["A"], ["M"], [0, 1, 2]⟩).next_month_label = "N/A" ∧
      (computeDashboard tsGap ⟨["A"], ["M"], [0, 1, 2]⟩).total_revenue =
        ((monthly_sales tsGap ⟨["A"], ["M"], [0, 1, 2]⟩).map Prod.snd).sum ∧
      (computeDashboard tsGap ⟨["A"], ["M"], [0, 1, 2]⟩).avg_monthly_revenue =
        pandasMean ((monthly_sales tsGap ⟨["A"], ["M"], [0, 1, 2]⟩).map Prod.snd) :=
  missing_prev_month_defaults tsGap ⟨["A"], ["M"], [0, 1, 2]⟩ 2
    (by norm_num [selected_month?, monthly_sales, aggregate, monthsOf, insertMonth, sumAt,
      tsGap, display_pred, base_pred, beq_iff_eq])
    (by norm_num [monthly_base, aggregate, monthsOf, insertMonth, sumAt, tsGap, base_pred,
      lookupMonth, withGrowth, growthGo, beq_iff_eq])

theorem selected_month_in_base_witness :
    (lookupMonth (monthly_base tsEx ⟨["A"], ["M"], [0, 1, 2]⟩) 2).isSome = true :=
  selected_month_in_base tsEx ⟨["A"], ["M"], [0, 1, 2]⟩ 2
    (by norm_num [selected_month?, monthly_sales, aggregate, monthsOf, insertMonth, sumAt,
      tsEx, display_pred, base_pred, beq_iff_eq])

theorem next_revenue_eq_current_base_witness :
    (computeDashboard tsEx ⟨["A"], ["M"], [0, 1, 2]⟩).next_month_revenue = 900 :=
  next_revenue_eq_current_base tsEx ⟨["A"], ["M"], [0, 1, 2]⟩ 2 1200 (some (1 / 5)) 900
    (some (-(1 / 4)))
    (by norm_num [selected_month?, monthly_sales, aggregate, monthsOf, insertMonth, sumAt,
      tsEx, display_pred, base_pred, beq_iff_eq])
    (by norm_num [monthly_base, aggregate, monthsOf, insertMonth, sumAt, tsEx, base_pred,
      lookupMonth, withGrowth, growthGo, beq_iff_eq])
    (by norm_num [monthly_base, aggregate, monthsOf, insertMonth, sumAt, tsEx, base_pred,
      lookupMonth, withGrowth, growthGo, beq_iff_eq])
    (by norm_num)

theorem avg_growth_rate_skips_first_witness :
    ((monthly_base tsEx ⟨["A"], ["M"], [0, 1, 2]⟩).filterMap (fun e => e.2.2)).length =
        (monthly_base tsEx ⟨["A"], ["M"], [0, 1, 2]⟩).length - 1 ∧
      avg_growth_rate (monthly_base tsEx ⟨["A"], ["M"], [0, 1, 2]⟩) =
        some ((((monthly_base tsEx ⟨["A"], ["M"], [0, 1, 2]⟩).filterMap
            (fun e => e.2.2)).sum /
          (((monthly_base tsEx ⟨["A"], ["M"], [0, 1, 2]⟩).length : ℚ) - 1)) * 100) :=
  avg_growth_rate_skips_first tsEx ⟨["A"], ["M"], [0, 1, 2]⟩
    (by norm_num [monthly_base, aggregate, monthsOf, insertMonth, sumAt, tsEx, base_pred,
      withGrowth, growthGo, beq_iff_eq])

theorem trend_positive_iff_witness :
    ∃ g, avg_growth_rate (monthly_base tsEx ⟨["A"], ["M"], [0, 1, 2]⟩) = some g ∧
      ((insights_trend tsEx ⟨["A"], ["M"], [0, 1, 2]⟩ = some "positive") ↔ 0 < g) ∧
      (g = 0 → insights_trend tsEx ⟨["A"], ["M"], [0, 1, 2]⟩ = some "negative") :=
  trend_positive_iff tsEx ⟨["A"], ["M"], [0, 1, 2]⟩
    (by norm_num [monthly_sales, aggregate, monthsOf, insertMonth, sumAt, tsEx,
      display_pred, base_pred, beq_iff_eq])

theorem revenue_std_sample_witness :
    revenue_std ((monthly_sales tsTwo ⟨["A"], ["M"], [0, 1]⟩).map Prod.snd) =
        some (|(30 : ℝ) - (10 : ℝ)| / Real.sqrt 2) ∧
      ((10 : ℚ) ≠ 30 →
        revenue_std ((monthly_sales tsTwo ⟨["A"], ["M"], [0, 1]⟩).map Prod.snd) ≠
          some (|(30 : ℝ) - (10 : ℝ)| / 2)) :=
  revenue_std_sample tsTwo ⟨["A"], ["M"], [0, 1]⟩ 10 30
    (by norm_num [monthly_sales, aggregate, monthsOf, insertMonth, sumAt, tsTwo,
      display_pred, base_pred, beq_iff_eq])

end Sales2
